import Mathlib

/-!
Shallow embedding of the smart-mail-manager batch orchestration core.

The definitions below are translated from the JavaScript sources:
  * `MongoDatabase.checkRateLimit`        (database-mongo.js, lines 268-296)
  * `MongoDatabase.createBatchLog` / `updateBatchLog` (database-mongo.js, 220-252)
  * `MongoDatabase.saveLabel` / `getLabelByName`      (database-mongo.js, 181-217)
  * `EnhancedGeminiAnalyzer.analyzeEmail` / `validateAnalysis` / `fallbackAnalysis`
                                          (gemini-enhanced.js)
  * `withTokenRefresh`                    (server-mongo.js, 90-139)
  * `POST /api/batch/create` handler      (server-mongo.js, 192-231)
  * `BatchProcessor.createBatch` / `executeBatch` / `batchCreateLabels` /
    `batchAssignLabels` / `fullBatchProcess`          (batch-processor, src/unnamed/part_000)

Asynchronous Mongo/Gmail calls are modelled by explicit state passing over
lists of records; time is an explicit `Nat` parameter (milliseconds);
thrown JavaScript exceptions are modelled with `Except String`.
-/

namespace SmartMail

/-! ## Rate limiter (`MongoDatabase.checkRateLimit`) -/

/-- One document of the `rateLimits` collection.  The `expiresAt` TTL field of
the source only drives background purging of documents that the
`timestamp: { $gte: windowStart }` query already ignores, so it is omitted. -/
structure RateEntry where
  key : String
  timestamp : Nat
  deriving Repr, DecidableEq

/-- The `countDocuments({ key, timestamp: { $gte: windowStart } })` query:
number of stored entries for `key` whose timestamp lies in the trailing
60000 ms window ending at `now`. -/
def inWindowCount (db : List RateEntry) (now : Nat) (key : String) : Nat :=
  (db.filter (fun e => decide (e.key = key ∧ now - 60000 ≤ e.timestamp))).length

/-- `MongoDatabase.checkRateLimit(userId, operation)`.  `storeOk = false`
models the catch-all branch (any error while reaching the rateLimits
collection), which returns `true` without recording anything (fail-open).
Returns the boolean result together with the updated collection. -/
def checkRateLimit (storeOk : Bool) (db : List RateEntry) (now : Nat)
    (userId operation : String) : Bool × List RateEntry :=
  if storeOk then
    let key := userId ++ "_" ++ operation
    if 10 ≤ inWindowCount db now key then
      (false, db)
    else
      (true, db ++ [⟨key, now⟩])
  else
    (true, db)

/-- `n` consecutive `checkRateLimit` calls for the same user/operation at the
same instant, collecting the results in order. -/
def rateCallSeq (storeOk : Bool) (db : List RateEntry) (now : Nat)
    (userId operation : String) : Nat → List Bool × List RateEntry
  | 0 => ([], db)
  | n + 1 =>
    let step := checkRateLimit storeOk db now userId operation
    let rest := rateCallSeq storeOk step.2 now userId operation n
    (step.1 :: rest.1, rest.2)

end SmartMail

namespace SmartMail

theorem inWindowCount_append_hit (db : List RateEntry) (now : Nat) (key : String) :
    inWindowCount (db ++ [⟨key, now⟩]) now key = inWindowCount db now key + 1 := by
  simp [inWindowCount, List.filter_append, Nat.sub_le]

theorem checkRateLimit_denies (db : List RateEntry) (now : Nat) (u op : String)
    (h : 10 ≤ inWindowCount db now (u ++ "_" ++ op)) :
    checkRateLimit true db now u op = (false, db) := by
  simp [checkRateLimit, h]

theorem checkRateLimit_allows (db : List RateEntry) (now : Nat) (u op : String)
    (h : inWindowCount db now (u ++ "_" ++ op) < 10) :
    checkRateLimit true db now u op = (true, db ++ [⟨u ++ "_" ++ op, now⟩]) := by
  simp [checkRateLimit, Nat.not_le.mpr h]

/-- All of the first `k` same-instant calls succeed while the window count
stays below the ceiling, and each one records exactly one entry. -/
theorem rateCallSeq_all_true (now : Nat) (u op : String) :
    ∀ (k : Nat) (db : List RateEntry),
      inWindowCount db now (u ++ "_" ++ op) + k ≤ 10 →
      (rateCallSeq true db now u op k).1 = List.replicate k true ∧
      inWindowCount (rateCallSeq true db now u op k).2 now (u ++ "_" ++ op) =
        inWindowCount db now (u ++ "_" ++ op) + k := by
  intro k
  induction k with
  | zero => intro db _; simp [rateCallSeq]
  | succ n ih =>
    intro db h
    have hlt : inWindowCount db now (u ++ "_" ++ op) < 10 := by omega
    have hstep := checkRateLimit_allows db now u op hlt
    have hcount := inWindowCount_append_hit db now (u ++ "_" ++ op)
    have hrec := ih (db ++ [⟨u ++ "_" ++ op, now⟩]) (by omega)
    constructor
    · simp only [rateCallSeq, hstep, List.replicate_succ]
      exact congrArg (List.cons true) hrec.1
    · simp only [rateCallSeq, hstep]
      omega

/-- Once the in-window count has reached the ceiling, every further
same-instant call is denied and the store is unchanged. -/
theorem rateCallSeq_all_false (now : Nat) (u op : String) :
    ∀ (k : Nat) (db : List RateEntry),
      10 ≤ inWindowCount db now (u ++ "_" ++ op) →
      (rateCallSeq true db now u op k).1 = List.replicate k false ∧
      (rateCallSeq true db now u op k).2 = db := by
  intro k
  induction k with
  | zero => intro db _; simp [rateCallSeq]
  | succ n ih =>
    intro db h
    have hstep := checkRateLimit_denies db now u op h
    have hrec := ih db h
    refine ⟨?_, ?_⟩
    · simp only [rateCallSeq, hstep, List.replicate_succ]
      exact congrArg (List.cons false) hrec.1
    · simp only [rateCallSeq, hstep]
      exact hrec.2

/-- Splitting a call sequence. -/
theorem rateCallSeq_add (storeOk : Bool) (now : Nat) (u op : String) :
    ∀ (m n : Nat) (db : List RateEntry),
      rateCallSeq storeOk db now u op (m + n) =
        ((rateCallSeq storeOk db now u op m).1 ++
          (rateCallSeq storeOk (rateCallSeq storeOk db now u op m).2 now u op n).1,
         (rateCallSeq storeOk (rateCallSeq storeOk db now u op m).2 now u op n).2) := by
  intro m
  induction m with
  | zero => intro n db; simp [rateCallSeq]
  | succ m ih =>
    intro n db
    have : m + 1 + n = (m + n) + 1 := by omega
    rw [this]
    simp only [rateCallSeq]
    rw [ih]
    simp

/-- Claim C4: for each `(userId, operationTag)` with ceiling 10 calls per
60-second sliding window, `checkRateLimit` checks the in-window count before
recording: it returns `false` and records nothing when the count already
meets the ceiling, otherwise records the current call and returns `true`;
exactly 10 same-window calls succeed and the 11th is denied; once every
stored entry for the key has fallen out of the window a call succeeds again;
and a failure to reach the counter store yields `true` (fail-open). -/
theorem claim_C4 (db : List RateEntry) (now : Nat) (u op : String) :
    (10 ≤ inWindowCount db now (u ++ "_" ++ op) →
        checkRateLimit true db now u op = (false, db)) ∧
    (inWindowCount db now (u ++ "_" ++ op) < 10 →
        checkRateLimit true db now u op =
          (true, db ++ [⟨u ++ "_" ++ op, now⟩])) ∧
    (checkRateLimit false db now u op = (true, db)) ∧
    (inWindowCount db now (u ++ "_" ++ op) = 0 →
        (rateCallSeq true db now u op 11).1 =
          List.replicate 10 true ++ [false]) ∧
    ((∀ e ∈ db, e.key = u ++ "_" ++ op → e.timestamp + 60000 < now) →
        (checkRateLimit true db now u op).1 = true) := by
  refine ⟨checkRateLimit_denies db now u op, checkRateLimit_allows db now u op,
    by simp [checkRateLimit], ?_, ?_⟩
  · intro h0
    have hten := rateCallSeq_all_true now u op 10 db (by omega)
    have hone := rateCallSeq_all_false now u op 1
        (rateCallSeq true db now u op 10).2 (by omega)
    have hsplit := rateCallSeq_add true now u op 10 1 db
    have : (rateCallSeq true db now u op 11).1 =
        (rateCallSeq true db now u op 10).1 ++
          (rateCallSeq true (rateCallSeq true db now u op 10).2 now u op 1).1 := by
      rw [hsplit]
    rw [this, hten.1, hone.1]
    rfl
  · intro h
    have h0 : inWindowCount db now (u ++ "_" ++ op) = 0 := by
      have : db.filter
          (fun e => decide (e.key = u ++ "_" ++ op ∧ now - 60000 ≤ e.timestamp)) = [] := by
        apply List.filter_eq_nil_iff.mpr
        intro e he
        simp only [decide_eq_true_eq, not_and]
        intro hk
        have := h e he hk
        omega
      unfold inWindowCount
      rw [this]
      rfl
    have := checkRateLimit_allows db now u op (by omega)
    simp [this]

/-- Concrete store holding ten in-window entries for the key `"u1_gemini"`. -/
def rateDbTen : List RateEntry := List.replicate 10 ⟨"u1_gemini", 70000⟩

theorem claim_C4_witness :
    checkRateLimit true rateDbTen 70000 "u1" "gemini" = (false, rateDbTen) :=
  (claim_C4 rateDbTen 70000 "u1" "gemini").1 (by decide)

/-! ## Batch jobs (`BatchProcessor` and the `batchLogs` collection) -/

/-- The result object returned by a sub-procedure (`batchFetchEmails`,
`batchAnalyzeEmails`, `batchCreateLabels`, `batchAssignLabels`,
`fullBatchProcess`).  JavaScript objects carry only some of these keys, so
every field is an `Option`; `none` means the key is absent. -/
structure StepResult where
  emailsProcessed : Option Nat := none
  emailsTotal : Option Nat := none
  labelsCreated : Option Nat := none
  labelsUsed : Option Nat := none
  errors : Option (List String) := none
  operation : Option String := none
  deriving Repr, DecidableEq

/-- Object spread `{...a, ...b}` restricted to the result keys: a key of `b`
wins whenever `b` carries it. -/
def StepResult.merge (a b : StepResult) : StepResult where
  emailsProcessed := b.emailsProcessed <|> a.emailsProcessed
  emailsTotal := b.emailsTotal <|> a.emailsTotal
  labelsCreated := b.labelsCreated <|> a.labelsCreated
  labelsUsed := b.labelsUsed <|> a.labelsUsed
  errors := b.errors <|> a.errors
  operation := b.operation <|> a.operation

/-- One document of the `batchLogs` collection.  `batchSize` stands for
`options.batchSize` (the only option the validated route inspects). -/
structure BatchLog where
  batchId : String
  userId : String
  operation : String
  batchSize : Option Int
  status : String
  emailsProcessed : Nat
  emailsTotal : Nat
  labelsCreated : Nat
  labelsUsed : Nat
  errors : List String
  startTime : Option Nat
  endTime : Option Nat
  deriving Repr, DecidableEq

/-- The `batchData` object built by `BatchProcessor.createBatch`. -/
def batchData (bid userId operation : String) (batchSize : Option Int) : BatchLog :=
  { batchId := bid, userId := userId, operation := operation, batchSize := batchSize,
    status := "created", emailsProcessed := 0, emailsTotal := 0,
    labelsCreated := 0, labelsUsed := 0, errors := [],
    startTime := none, endTime := none }

/-- `MongoDatabase.createBatchLog`: `insertOne({...batchData, startTime: new
Date(), status: 'started'})` — the spread is overridden by the trailing
`startTime`/`status` keys. -/
def createBatchLog (db : List BatchLog) (data : BatchLog) (now : Nat) : List BatchLog :=
  db ++ [{ data with startTime := some now, status := "started" }]

/-- `BatchProcessor.createBatch(userId, operation, options)`: builds
`batchData` (status `'created'`), persists it through `createBatchLog`, and
returns the generated `batchId`.  Does not execute anything. -/
def createBatch (db : List BatchLog) (userId operation : String)
    (batchSize : Option Int) (bid : String) (now : Nat) : String × List BatchLog :=
  (bid, createBatchLog db (batchData bid userId operation batchSize) now)

/-- `findOne({ batchId })` on the `batchLogs` collection. -/
def batchFind (db : List BatchLog) (bid : String) : Option BatchLog :=
  db.find? (fun l => decide (l.batchId = bid))

/-- `updateOne({ batchId }, { $set: ... })`: rewrites the first matching
document, leaves the rest untouched, inserts nothing. -/
def updateBatchWhere : List BatchLog → String → (BatchLog → BatchLog) → List BatchLog
  | [], _, _ => []
  | l :: t, bid, f =>
    if l.batchId = bid then f l :: t else l :: updateBatchWhere t bid f

/-- `$set` of the keys spread from a result object onto a job document. -/
def applyResult (r : StepResult) (l : BatchLog) : BatchLog :=
  { l with
    emailsProcessed := r.emailsProcessed.getD l.emailsProcessed,
    emailsTotal := r.emailsTotal.getD l.emailsTotal,
    labelsCreated := r.labelsCreated.getD l.labelsCreated,
    labelsUsed := r.labelsUsed.getD l.labelsUsed,
    errors := r.errors.getD l.errors,
    operation := r.operation.getD l.operation }

/-- The in-flight `updateBatchLog(batchId, {...})` progress checkpoints a
sub-procedure issues while running (the source writes only counter keys
through these, never `status`). -/
def applyProgress (db : List BatchLog) (bid : String) : List StepResult → List BatchLog
  | [] => db
  | r :: rs => applyProgress (updateBatchWhere db bid (applyResult r)) bid rs

/-- `BatchProcessor.executeBatch(batchId, userTokens)`.  The dispatched
sub-procedure is abstracted by the checkpoints it writes (`progress`) and its
outcome (`outcome`: the returned result object, or the thrown error message).
Returns what `executeBatch` returns/re-raises, with the updated store. -/
def executeBatch (db : List BatchLog) (bid : String) (now : Nat)
    (progress : List StepResult) (outcome : Except String StepResult) :
    Except String StepResult × List BatchLog :=
  match batchFind db bid with
  | none =>
    -- `throw new Error('Batch not found')`; the catch block still issues the
    -- `status: 'failed'` update, which matches no document, then re-throws.
    (Except.error "Batch not found",
      updateBatchWhere db bid (fun l =>
        { l with status := "failed", endTime := some now, errors := ["Batch not found"] }))
  | some _ =>
    let db1 := updateBatchWhere db bid (fun l =>
      { l with status := "running", startTime := some now })
    let db2 := applyProgress db1 bid progress
    match outcome with
    | Except.ok r =>
      (Except.ok r,
        updateBatchWhere db2 bid (fun l =>
          applyResult r { l with status := "completed", endTime := some now }))
    | Except.error e =>
      (Except.error e,
        updateBatchWhere db2 bid (fun l =>
          { l with status := "failed", endTime := some now, errors := [e] }))

/-- Status field of the `batchId` record, when present. -/
def statusOf (db : List BatchLog) (bid : String) : Option String :=
  (batchFind db bid).map BatchLog.status

/-- Statuses observed after each in-flight progress checkpoint. -/
def midStatuses (bid : String) : List BatchLog → List StepResult → List String
  | _, [] => []
  | d, r :: rs =>
    let d' := updateBatchWhere d bid (applyResult r)
    ((statusOf d' bid).getD "?") :: midStatuses bid d' rs

/-- The status the job record holds after each store write `executeBatch`
performs, in write order (empty when the record does not exist).  The final
store below recomputes exactly the store `executeBatch` returns. -/
def executeStatusTrace (db : List BatchLog) (bid : String) (now : Nat)
    (progress : List StepResult) (outcome : Except String StepResult) :
    List String :=
  match batchFind db bid with
  | none => []
  | some _ =>
    let db1 := updateBatchWhere db bid (fun l =>
      { l with status := "running", startTime := some now })
    let db2 := applyProgress db1 bid progress
    let dbFinal :=
      match outcome with
      | Except.ok r => updateBatchWhere db2 bid (fun l =>
          applyResult r { l with status := "completed", endTime := some now })
      | Except.error e => updateBatchWhere db2 bid (fun l =>
          { l with status := "failed", endTime := some now, errors := [e] })
    (((statusOf db1 bid).getD "?") :: midStatuses bid db1 progress) ++
      [((statusOf dbFinal bid).getD "?")]

theorem batchFind_updateBatchWhere (bid : String) (f : BatchLog → BatchLog)
    (hf : ∀ l, (f l).batchId = l.batchId) :
    ∀ db : List BatchLog,
      batchFind (updateBatchWhere db bid f) bid = (batchFind db bid).map f := by
  intro db
  induction db with
  | nil => rfl
  | cons l t ih =>
    simp only [updateBatchWhere]
    by_cases h : l.batchId = bid
    · have hfl : (f l).batchId = bid := by rw [hf l]; exact h
      rw [if_pos h]
      unfold batchFind
      rw [List.find?_cons_of_pos _ (by simp [hfl]),
        List.find?_cons_of_pos _ (by simp [h])]
      rfl
    · rw [if_neg h]
      unfold batchFind at ih ⊢
      rw [List.find?_cons_of_neg _ (by simp [h]),
        List.find?_cons_of_neg _ (by simp [h])]
      exact ih

theorem updateBatchWhere_no_match (bid : String) (f : BatchLog → BatchLog) :
    ∀ db : List BatchLog, batchFind db bid = none → updateBatchWhere db bid f = db := by
  intro db
  induction db with
  | nil => intro _; rfl
  | cons l t ih =>
    intro h
    by_cases hl : l.batchId = bid
    · exfalso
      unfold batchFind at h
      rw [List.find?_cons_of_pos _ (by simp [hl])] at h
      exact Option.some_ne_none l h
    · unfold batchFind at h
      rw [List.find?_cons_of_neg _ (by simp [hl])] at h
      simp only [updateBatchWhere, if_neg hl]
      rw [ih h]

theorem applyResult_batchId (r : StepResult) (l : BatchLog) :
    (applyResult r l).batchId = l.batchId := rfl

theorem applyResult_status (r : StepResult) (l : BatchLog) :
    (applyResult r l).status = l.status := rfl

theorem batchFind_applyProgress (bid : String) :
    ∀ (rs : List StepResult) (db : List BatchLog),
      batchFind (applyProgress db bid rs) bid =
        (batchFind db bid).map
          (fun l => rs.foldl (fun acc r => applyResult r acc) l) := by
  intro rs
  induction rs with
  | nil => intro db; simp [applyProgress]
  | cons r rs ih =>
    intro db
    simp only [applyProgress]
    rw [ih, batchFind_updateBatchWhere bid (applyResult r) (fun _ => rfl)]
    cases batchFind db bid <;> simp [List.foldl]

theorem foldl_applyResult_status :
    ∀ (rs : List StepResult) (l : BatchLog),
      (List.foldl (fun acc r => applyResult r acc) l rs).status = l.status := by
  intro rs
  induction rs with
  | nil => intro l; rfl
  | cons r rs ih => intro l; simp only [List.foldl]; exact ih (applyResult r l)

theorem midStatuses_running (bid : String) :
    ∀ (rs : List StepResult) (d : List BatchLog) (l : BatchLog),
      batchFind d bid = some l →
      midStatuses bid d rs = List.replicate rs.length l.status := by
  intro rs
  induction rs with
  | nil => intro d l _; rfl
  | cons r rs ih =>
    intro d l h
    have hfind : batchFind (updateBatchWhere d bid (applyResult r)) bid =
        some (applyResult r l) := by
      rw [batchFind_updateBatchWhere bid (applyResult r) (fun _ => rfl), h]; rfl
    simp only [midStatuses]
    rw [ih _ _ hfind]
    simp [statusOf, hfind, applyResult_status, List.replicate_succ]

/-- The terminal status `executeBatch` writes for a given sub-procedure
outcome. -/
def terminalStatus (outcome : Except String StepResult) : String :=
  match outcome with
  | Except.ok _ => "completed"
  | Except.error _ => "failed"

/-- Claim C1 (amended): `create` persists the new job with status `'started'`
(the store layer overrides the orchestrator's `'created'`) without starting
execution; when the job exists, `execute` moves it to `'running'` and then to
exactly one of `'completed'`/`'failed'` — within one run every write before
the terminal one shows `'running'`; when the job does not exist no record
changes.  Terminal statuses are not guarded: `execute` transitions any
existing job, whatever its current status, so a further `execute` on a
`'completed'` or `'failed'` job changes its status again. -/
theorem claim_C1 (db : List BatchLog) (u op bid : String) (bs : Option Int)
    (now : Nat) (progress : List StepResult) (outcome : Except String StepResult) :
    ((createBatch db u op bs bid now).2 =
        db ++ [{ batchData bid u op bs with startTime := some now, status := "started" }]) ∧
    (∀ l0, batchFind db bid = some l0 →
      executeStatusTrace db bid now progress outcome =
        ("running" :: List.replicate progress.length "running") ++
          [terminalStatus outcome] ∧
      statusOf (executeBatch db bid now progress outcome).2 bid =
        some (terminalStatus outcome)) ∧
    (batchFind db bid = none →
      (executeBatch db bid now progress outcome).2 = db) := by
  refine ⟨rfl, ?_, ?_⟩
  · intro l0 h
    have hrun : batchFind (updateBatchWhere db bid (fun l =>
        { l with status := "running", startTime := some now })) bid =
        some { l0 with status := "running", startTime := some now } := by
      rw [batchFind_updateBatchWhere bid
        (fun l => { l with status := "running", startTime := some now })
        (fun _ => rfl), h]; rfl
    have hmid := midStatuses_running bid progress _ _ hrun
    have hdb2 : batchFind (applyProgress (updateBatchWhere db bid (fun l =>
        { l with status := "running", startTime := some now })) bid progress) bid =
        some (progress.foldl (fun acc r => applyResult r acc)
          { l0 with status := "running", startTime := some now }) := by
      rw [batchFind_applyProgress, hrun]; rfl
    constructor
    · cases outcome with
      | ok r =>
        simp only [executeStatusTrace, h]
        rw [hmid]
        unfold statusOf
        rw [hrun, batchFind_updateBatchWhere bid
          (fun l => applyResult r { l with status := "completed", endTime := some now })
          (fun _ => rfl), hdb2]
        rfl
      | error e =>
        simp only [executeStatusTrace, h]
        rw [hmid]
        unfold statusOf
        rw [hrun, batchFind_updateBatchWhere bid
          (fun l => { l with status := "failed", endTime := some now, errors := [e] })
          (fun _ => rfl), hdb2]
        rfl
    · cases outcome with
      | ok r =>
        simp only [executeBatch, h]
        unfold statusOf
        rw [batchFind_updateBatchWhere bid
          (fun l => applyResult r { l with status := "completed", endTime := some now })
          (fun _ => rfl), hdb2]
        rfl
      | error e =>
        simp only [executeBatch, h]
        unfold statusOf
        rw [batchFind_updateBatchWhere bid
          (fun l => { l with status := "failed", endTime := some now, errors := [e] })
          (fun _ => rfl), hdb2]
        rfl
  · intro h
    simp only [executeBatch, h]
    rw [updateBatchWhere_no_match bid _ db h]

/-- A job already in a terminal state. -/
def cexCompletedJob : BatchLog :=
  { batchId := "b1", userId := "u1", operation := "fetchEmails", batchSize := none,
    status := "completed", emailsProcessed := 3, emailsTotal := 3,
    labelsCreated := 0, labelsUsed := 0, errors := [],
    startTime := some 1, endTime := some 2 }

/-- Counterexample to claim C1 as stated: `create` persists the job with
status `'started'`, not `'created'` (the store layer overrides), and a
further `execute` on an already-`'completed'` job changes its status again
(to `'failed'` here), so terminal states are not final. -/
theorem claim_C1_cex :
    ((createBatch [] "u1" "fetchEmails" none "b1" 5).2.map BatchLog.status = ["started"] ∧
      "started" ≠ "created") ∧
    (statusOf (executeBatch [cexCompletedJob] "b1" 7 [] (Except.error "boom")).2 "b1" =
        some "failed" ∧
      some "failed" ≠ some "completed") := by
  constructor
  · exact ⟨by decide, by decide⟩
  · exact ⟨by decide, by decide⟩

theorem claim_C1_witness :
    statusOf (executeBatch [cexCompletedJob] "b1" 7 []
        (Except.ok { emailsProcessed := some 3 })).2 "b1" = some "completed" :=
  ((claim_C1 [cexCompletedJob] "u1" "fetchEmails" "b1" none 7 []
      (Except.ok { emailsProcessed := some 3 })).2.1 cexCompletedJob (by decide)).2

/-- Claim C8 (amended): when `execute` fails with an unrecovered exception,
the job's `errors` list is replaced by the one-element list holding that
error message (earlier diagnostics are overwritten, not appended), the status
becomes `'failed'` with `endTime` set, the counters and sub-results already
written to the record by completed sub-steps are preserved (the failure
update touches only `status`, `endTime` and `errors`), and the exception is
re-raised to the caller. -/
theorem claim_C8 (db : List BatchLog) (bid : String) (now : Nat)
    (progress : List StepResult) (e : String) (l0 : BatchLog)
    (h : batchFind db bid = some l0) :
    (executeBatch db bid now progress (Except.error e)).1 = Except.error e ∧
    ∃ lp, batchFind (applyProgress (updateBatchWhere db bid (fun l =>
            { l with status := "running", startTime := some now })) bid progress) bid =
          some lp ∧
      batchFind (executeBatch db bid now progress (Except.error e)).2 bid =
        some { lp with status := "failed", endTime := some now, errors := [e] } := by
  have hrun : batchFind (updateBatchWhere db bid (fun l =>
      { l with status := "running", startTime := some now })) bid =
      some { l0 with status := "running", startTime := some now } := by
    rw [batchFind_updateBatchWhere bid
      (fun l => { l with status := "running", startTime := some now })
      (fun _ => rfl), h]; rfl
  have hdb2 : batchFind (applyProgress (updateBatchWhere db bid (fun l =>
      { l with status := "running", startTime := some now })) bid progress) bid =
      some (progress.foldl (fun acc r => applyResult r acc)
        { l0 with status := "running", startTime := some now }) := by
    rw [batchFind_applyProgress, hrun]; rfl
  refine ⟨by simp only [executeBatch, h], ?_⟩
  refine ⟨_, hdb2, ?_⟩
  simp only [executeBatch, h]
  rw [batchFind_updateBatchWhere bid
    (fun l => { l with status := "failed", endTime := some now, errors := [e] })
    (fun _ => rfl), hdb2]
  rfl

/-- A running job carrying an earlier diagnostic in its `errors` list. -/
def cexErrJob : BatchLog :=
  { batchId := "b2", userId := "u1", operation := "fullProcess", batchSize := none,
    status := "running", emailsProcessed := 7, emailsTotal := 9,
    labelsCreated := 2, labelsUsed := 2, errors := ["earlier diagnostic"],
    startTime := some 1, endTime := none }

/-- Counterexample to claim C8 as stated: the failure update replaces the
`errors` list with the singleton of the new message instead of appending, so
the earlier diagnostic is lost. -/
theorem claim_C8_cex :
    ((batchFind (executeBatch [cexErrJob] "b2" 9 [] (Except.error "boom")).2 "b2").map
        BatchLog.errors = some ["boom"]) ∧
    some ["boom"] ≠ some ["earlier diagnostic", "boom"] := by
  exact ⟨by decide, by decide⟩

theorem claim_C8_witness :
    (executeBatch [cexErrJob] "b2" 9 [] (Except.error "boom")).1 =
      Except.error "boom" :=
  (claim_C8 [cexErrJob] "b2" 9 [] "boom" cexErrJob (by decide)).1

/-! ## The `POST /api/batch/create` route (server-mongo.js) -/

/-- Outcome of the route handler: a JSON success payload carrying the
`batchId`, or a 400 response. -/
inductive RouteResult where
  | ok (batchId : String)
  | badRequest (msg : String)
  deriving Repr, DecidableEq

/-- The `maxBatchSizes` table of the route handler. -/
def maxBatchSizeFor (op : String) : Option Int :=
  if op = "fetchEmails" then some 500
  else if op = "analyzeEmails" then some 200
  else if op = "assignLabels" then some 200
  else if op = "fullProcess" then some 200
  else none

/-- JavaScript truthiness of `options.batchSize`: absent and `0` are falsy. -/
def intTruthy : Option Int → Bool
  | none => false
  | some n => decide (n ≠ 0)

/-- The `POST /api/batch/create` handler: validation runs only under
`if (options.batchSize && maxBatchSizes[operation])`; inside it, a value
above the ceiling and then a value below 1 are rejected with a 400; in every
other case `batchProcessor.createBatch` persists the job. -/
def createBatchRoute (db : List BatchLog) (userId operation : String)
    (batchSize : Option Int) (bid : String) (now : Nat) :
    RouteResult × List BatchLog :=
  match intTruthy batchSize, maxBatchSizeFor operation with
  | true, some mx =>
    let bs := batchSize.getD 0
    if mx < bs then (RouteResult.badRequest "Batch size too large", db)
    else if bs < 1 then (RouteResult.badRequest "Batch size must be at least 1", db)
    else (RouteResult.ok bid, (createBatch db userId operation batchSize bid now).2)
  | _, _ => (RouteResult.ok bid, (createBatch db userId operation batchSize bid now).2)

theorem maxBatchSizeFor_pos (op : String) (mx : Int)
    (h : maxBatchSizeFor op = some mx) : 1 ≤ mx := by
  unfold maxBatchSizeFor at h
  split_ifs at h <;> simp_all <;> omega

/-- Claim C5 (amended): the route rejects with a 400 and creates no job when
`options.batchSize` is present and nonzero, the operation has a ceiling
(fetchEmails 500, analyzeEmails 200, assignLabels 200, fullProcess 200), and
the value exceeds the ceiling or is below 1; but when `batchSize` is `0` or
absent, or the operation has no ceiling, the truthiness guard skips
validation entirely and a job is persisted; in the accepted range it
persists a new job (status `'started'`) and returns its `batchId` without
starting execution. -/
theorem claim_C5 (db : List BatchLog) (u op bid : String) (bs : Option Int)
    (now : Nat) (mx : Int) :
    (maxBatchSizeFor op = some mx → intTruthy bs = true → mx < bs.getD 0 →
      createBatchRoute db u op bs bid now =
        (RouteResult.badRequest "Batch size too large", db)) ∧
    (maxBatchSizeFor op = some mx → intTruthy bs = true → bs.getD 0 < 1 →
      createBatchRoute db u op bs bid now =
        (RouteResult.badRequest "Batch size must be at least 1", db)) ∧
    (intTruthy bs = false →
      createBatchRoute db u op bs bid now =
        (RouteResult.ok bid,
          db ++ [{ batchData bid u op bs with startTime := some now, status := "started" }])) ∧
    (maxBatchSizeFor op = none →
      createBatchRoute db u op bs bid now =
        (RouteResult.ok bid,
          db ++ [{ batchData bid u op bs with startTime := some now, status := "started" }])) ∧
    (maxBatchSizeFor op = some mx → 1 ≤ bs.getD 0 → bs.getD 0 ≤ mx →
      createBatchRoute db u op bs bid now =
        (RouteResult.ok bid,
          db ++ [{ batchData bid u op bs with startTime := some now, status := "started" }])) := by
  refine ⟨?_, ?_, ?_, ?_, ?_⟩
  · intro hmx ht hlt
    simp [createBatchRoute, hmx, ht, hlt]
  · intro hmx ht hlt
    have hpos := maxBatchSizeFor_pos op mx hmx
    have : ¬ mx < bs.getD 0 := by omega
    simp [createBatchRoute, hmx, ht, this, hlt]
  · intro ht
    simp [createBatchRoute, ht]
    rfl
  · intro hmx
    cases htb : intTruthy bs <;>
      simp [createBatchRoute, hmx, htb] <;> rfl
  · intro hmx h1 h2
    have hnl : ¬ mx < bs.getD 0 := by omega
    have hnl1 : ¬ bs.getD 0 < 1 := by omega
    cases htb : intTruthy bs <;>
      simp [createBatchRoute, hmx, htb, hnl, hnl1] <;> rfl

/-- Counterexample to claim C5 as stated: `batchSize = 0` is below 1, yet
`0` is falsy so the `if (options.batchSize && ...)` guard skips validation
and a job is created. -/
theorem claim_C5_cex :
    (createBatchRoute [] "u1" "fetchEmails" (some 0) "b1" 3).1 =
      RouteResult.ok "b1" ∧
    (createBatchRoute [] "u1" "fetchEmails" (some 0) "b1" 3).2.length = 1 := by
  exact ⟨by decide, by decide⟩

theorem claim_C5_witness :
    createBatchRoute [] "u1" "fetchEmails" (some 501) "b1" 3 =
      (RouteResult.badRequest "Batch size too large", []) :=
  (claim_C5 [] "u1" "fetchEmails" "b1" (some 501) 3 500).1 (by decide) (by decide)
    (by decide)

/-! ## `fullBatchProcess` result composition (C10) -/

/-- Result object of `batchFetchEmails`. -/
def fetchResultOf (n : Nat) : StepResult :=
  { emailsProcessed := some n, emailsTotal := some n,
    operation := some "fetchEmails" }

/-- Result object of `batchAnalyzeEmails` (main return). -/
def analyzeResultOf (total succ fail : Nat) : StepResult :=
  { emailsProcessed := some succ, emailsTotal := some total,
    operation := some "analyzeEmails",
    errors := some (if 0 < fail then [toString fail ++ " emails failed analysis"] else []) }

/-- Result object of `batchCreateLabels`. -/
def createLabelsResultOf (created existing : Nat) : StepResult :=
  { labelsCreated := some created, labelsUsed := some (existing + created),
    operation := some "createLabels" }

/-- Result object of `batchAssignLabels` (main return). -/
def assignResultOf (total succ fail : Nat) : StepResult :=
  { emailsProcessed := some succ, emailsTotal := some total,
    operation := some "assignLabels",
    errors := some (if 0 < fail then [toString fail ++ " emails failed labeling"] else []) }

/-- Result object of `batchAssignLabels` when nothing is left to label; the
`errors` key is absent in this shape. -/
def assignResultEmpty : StepResult :=
  { emailsProcessed := some 0, emailsTotal := some 0,
    operation := some "assignLabels" }

/-- `fullBatchProcess` final result: `{...fetchResult, ...analyzeResult,
...createLabelsResult, ...assignLabelsResult, operation: 'fullProcess'}`. -/
def fullProcessResult (f a c s : StepResult) : StepResult :=
  { (((f.merge a).merge c).merge s) with operation := some "fullProcess" }

/-- Claim C10 (amended): the `fullProcess` result is the in-order object
spread of the four step results, so each of `emailsProcessed`, `emailsTotal`
and `errors` takes the value of the last step that produced it — in
particular `emailsProcessed` and `emailsTotal` are exactly those of the
`assignLabels` step, and `errors` falls back to the `analyzeEmails` value
when the `assignLabels` early return omits the key — except that the
`operation` key is overridden to `'fullProcess'` after the spreads; the
completed job record receives these values verbatim. -/
theorem claim_C10 (n t1 s1 f1 cr ex t2 s2 f2 : Nat) :
    ((fullProcessResult (fetchResultOf n) (analyzeResultOf t1 s1 f1)
        (createLabelsResultOf cr ex) (assignResultOf t2 s2 f2)).emailsProcessed =
      some s2) ∧
    ((fullProcessResult (fetchResultOf n) (analyzeResultOf t1 s1 f1)
        (createLabelsResultOf cr ex) (assignResultOf t2 s2 f2)).emailsTotal =
      some t2) ∧
    ((fullProcessResult (fetchResultOf n) (analyzeResultOf t1 s1 f1)
        (createLabelsResultOf cr ex) (assignResultOf t2 s2 f2)).errors =
      (assignResultOf t2 s2 f2).errors) ∧
    ((fullProcessResult (fetchResultOf n) (analyzeResultOf t1 s1 f1)
        (createLabelsResultOf cr ex) (assignResultOf t2 s2 f2)).labelsCreated =
      some cr) ∧
    ((fullProcessResult (fetchResultOf n) (analyzeResultOf t1 s1 f1)
        (createLabelsResultOf cr ex) (assignResultOf t2 s2 f2)).operation =
      some "fullProcess") ∧
    ((fullProcessResult (fetchResultOf n) (analyzeResultOf t1 s1 f1)
        (createLabelsResultOf cr ex) assignResultEmpty).errors =
      (analyzeResultOf t1 s1 f1).errors) ∧
    (∀ l : BatchLog,
      (applyResult (fullProcessResult (fetchResultOf n) (analyzeResultOf t1 s1 f1)
          (createLabelsResultOf cr ex) (assignResultOf t2 s2 f2)) l).emailsProcessed = s2 ∧
      (applyResult (fullProcessResult (fetchResultOf n) (analyzeResultOf t1 s1 f1)
          (createLabelsResultOf cr ex) (assignResultOf t2 s2 f2)) l).emailsTotal = t2) := by
  refine ⟨rfl, rfl, rfl, rfl, rfl, rfl, fun l => ⟨rfl, rfl⟩⟩

/-- Counterexample to claim C10 as stated: `operation` is a result key
produced by more than one step, its last producer is the `assignLabels` step
with value `'assignLabels'`, yet the final result records `'fullProcess'`
(the explicit override after the spreads). -/
theorem claim_C10_cex :
    (fullProcessResult (fetchResultOf 5) (analyzeResultOf 5 5 0)
        (createLabelsResultOf 1 0) (assignResultOf 5 5 0)).operation =
      some "fullProcess" ∧
    (assignResultOf 5 5 0).operation = some "assignLabels" ∧
    some "fullProcess" ≠ some "assignLabels" := by
  exact ⟨by decide, by decide, by decide⟩

/-! ## Label store (`labels` collection, C7) -/

/-- One document of the `labels` collection. -/
structure LabelRec where
  userId : String
  name : String
  gmailLabelId : String
  isAuto : Bool
  deriving Repr, DecidableEq

/-- `MongoDatabase.getLabelByName(userId, name)`: `findOne({ userId, name })`. -/
def getLabelByName (labels : List LabelRec) (u n : String) : Option LabelRec :=
  labels.find? (fun l => decide (l.userId = u ∧ l.name = n))

/-- `MongoDatabase.saveLabel`: `replaceOne({ userId, name }, doc, { upsert:
true })` — replaces the first document with the same `(userId, name)` key,
or inserts the document when none matches. -/
def saveLabel (labels : List LabelRec) (doc : LabelRec) : List LabelRec :=
  go labels
where
  go : List LabelRec → List LabelRec
    | [] => [doc]
    | l :: t =>
      if l.userId = doc.userId ∧ l.name = doc.name then doc :: t else l :: go t

/-- The per-label body of `BatchProcessor.batchCreateLabels`: look the name
up, and only when absent create the provider-side label (`gid` is the id the
provider assigns) and persist the new record.  Returns the resolved provider
label id, the updated store, and whether a provider-side create happened. -/
def resolveLabel (labels : List LabelRec) (u n gid : String) :
    String × List LabelRec × Bool :=
  match getLabelByName labels u n with
  | some l => (l.gmailLabelId, labels, false)
  | none =>
    (gid, saveLabel labels { userId := u, name := n, gmailLabelId := gid, isAuto := true },
      true)

/-- Number of stored records for a `(userId, name)` key. -/
def labelKeyCount (labels : List LabelRec) (u n : String) : Nat :=
  (labels.filter (fun l => decide (l.userId = u ∧ l.name = n))).length

theorem getLabelByName_saveLabel_self (doc : LabelRec) :
    ∀ labels : List LabelRec,
      getLabelByName (saveLabel labels doc) doc.userId doc.name = some doc := by
  intro labels
  induction labels with
  | nil =>
    simp [saveLabel, saveLabel.go, getLabelByName, List.find?]
  | cons l t ih =>
    by_cases h : l.userId = doc.userId ∧ l.name = doc.name
    · simp only [saveLabel, saveLabel.go, if_pos h]
      unfold getLabelByName
      rw [List.find?_cons_of_pos _ (by simp)]
    · simp only [saveLabel, saveLabel.go, if_neg h]
      unfold getLabelByName
      rw [List.find?_cons_of_neg _ (by simpa using h)]
      exact ih

theorem saveLabel_of_absent (doc : LabelRec) :
    ∀ labels : List LabelRec,
      getLabelByName labels doc.userId doc.name = none →
      saveLabel labels doc = labels ++ [doc] := by
  intro labels
  induction labels with
  | nil => intro _; rfl
  | cons l t ih =>
    intro h
    by_cases hl : l.userId = doc.userId ∧ l.name = doc.name
    · exfalso
      unfold getLabelByName at h
      rw [List.find?_cons_of_pos _ (by simpa using hl)] at h
      exact Option.some_ne_none l h
    · unfold getLabelByName at h
      rw [List.find?_cons_of_neg _ (by simpa using hl)] at h
      simp only [saveLabel, saveLabel.go, if_neg hl]
      rw [show saveLabel.go doc t = saveLabel t doc from rfl, ih h]
      rfl

theorem labelKeyCount_eq_zero_of_find_none (u n : String) :
    ∀ labels : List LabelRec,
      getLabelByName labels u n = none → labelKeyCount labels u n = 0 := by
  intro labels h
  unfold labelKeyCount
  rw [List.filter_eq_nil_iff.mpr]
  · rfl
  · intro l hl hpl
    have := List.find?_eq_none.mp h l hl
    exact this hpl

theorem labelKeyCount_append (labels : List LabelRec) (doc : LabelRec) (u n : String) :
    labelKeyCount (labels ++ [doc]) u n =
      labelKeyCount labels u n +
        (if doc.userId = u ∧ doc.name = n then 1 else 0) := by
  by_cases h : doc.userId = u ∧ doc.name = n <;>
    simp [labelKeyCount, List.filter_append, h]

/-- Claim C7: for all `(userId, name)`, a resolution that finds an existing
record returns its stored provider id and creates nothing; resolving once
and then resolving again returns the same provider label id, leaves the
store unchanged and creates no second provider-side label; and the store
invariant "at most one LabelRecord per `(userId, name)`" is preserved by
every resolution. -/
theorem claim_C7 (labels : List LabelRec) (u n gid gid2 : String) :
    (∀ l, getLabelByName labels u n = some l →
      resolveLabel labels u n gid = (l.gmailLabelId, labels, false)) ∧
    (resolveLabel (resolveLabel labels u n gid).2.1 u n gid2 =
      ((resolveLabel labels u n gid).1, (resolveLabel labels u n gid).2.1, false)) ∧
    ((∀ u' n', labelKeyCount labels u' n' ≤ 1) →
      ∀ u' n', labelKeyCount (resolveLabel labels u n gid).2.1 u' n' ≤ 1) := by
  refine ⟨?_, ?_, ?_⟩
  · intro l h
    simp [resolveLabel, h]
  · cases h : getLabelByName labels u n with
    | some l =>
      simp [resolveLabel, h]
    | none =>
      have hfound : getLabelByName
          (saveLabel labels { userId := u, name := n, gmailLabelId := gid, isAuto := true })
          u n =
          some { userId := u, name := n, gmailLabelId := gid, isAuto := true } :=
        getLabelByName_saveLabel_self _ labels
      simp [resolveLabel, h, hfound]
  · intro hinv u' n'
    cases h : getLabelByName labels u n with
    | some l => simpa [resolveLabel, h] using hinv u' n'
    | none =>
      simp only [resolveLabel, h]
      rw [saveLabel_of_absent _ labels h, labelKeyCount_append]
      by_cases hk : u = u' ∧ n = n'
      · have h0 : labelKeyCount labels u' n' = 0 := by
          rw [← hk.1, ← hk.2]
          exact labelKeyCount_eq_zero_of_find_none u n labels h
        simp [h0, hk.1, hk.2]
      · simp only [not_and] at hk
        by_cases h1 : u = u'
        · simp [h1, hk h1]
          simpa using hinv u' n'
        · simp [h1]
          simpa using hinv u' n'

theorem claim_C7_witness :
    resolveLabel [] "u1" "Banking" "L1" = ("L1", [⟨"u1", "Banking", "L1", true⟩], true) ∧
    resolveLabel [⟨"u1", "Banking", "L1", true⟩] "u1" "Banking" "L2" =
      ("L1", [⟨"u1", "Banking", "L1", true⟩], false) ∧
    labelKeyCount [⟨"u1", "Banking", "L1", true⟩] "u1" "Banking" ≤ 1 :=
  ⟨by decide,
   (claim_C7 [⟨"u1", "Banking", "L1", true⟩] "u1" "Banking" "L2" "L3").1
     ⟨"u1", "Banking", "L1", true⟩ (by decide),
   (claim_C7 [] "u1" "Banking" "L1" "L2").2.2 (fun _ _ => Nat.zero_le 1) "u1" "Banking"⟩

/-! ## Classification engine (gemini-enhanced.js) -/

/-- `VALID_CATEGORIES` from the `EnhancedGeminiAnalyzer` constructor. -/
def validCategories : List String :=
  ["Finance/Investments", "Finance/Banking", "Finance/E-commerce",
   "Finance/Billing", "Finance/General", "Work", "Shopping",
   "Personal", "Promotions", "Other"]

/-- The JSON object extracted from the AI response; every field may be
absent (`none`). -/
structure RawAnalysis where
  purpose : Option String := none
  category : Option String := none
  summary : Option String := none
  sentiment : Option String := none
  suggestedLabel : Option String := none
  deriving Repr, DecidableEq

/-- The validated analysis object the engine returns. -/
structure ClassificationResult where
  purpose : String
  category : String
  summary : String
  sentiment : String
  suggestedLabel : String
  deriving Repr, DecidableEq

/-- JavaScript `x || d` for an optional string: absent and `""` are falsy. -/
def strOrDefault (x : Option String) (d : String) : String :=
  match x with
  | none => d
  | some s => if s = "" then d else s

/-- The JavaScript regex class `\s` over the ASCII range: space, tab, line
feed, vertical tab, form feed, carriage return. -/
def jsWhitespace (c : Char) : Bool :=
  c = ' ' || c = '\t' || c = '\n' || c = '\x0b' || c = '\x0c' || c = '\r'

/-- A character the sanitizer `replace(/[^a-zA-Z0-9\s\/]/g, '')` keeps. -/
def keepLabelChar (c : Char) : Bool :=
  c.isAlphanum || jsWhitespace c || c = '/'

/-- `.replace(/[^a-zA-Z0-9\s\/]/g, '').trim().substring(0, 30)`. -/
def cleanLabel (s : String) : String :=
  String.mk (((((s.data.filter keepLabelChar).dropWhile jsWhitespace).reverse.dropWhile
    jsWhitespace).reverse).take 30)

/-- The `category` component of `validateAnalysis`: off-set values (and a
missing key, which `includes(undefined)` also rejects) become `'Other'`. -/
def validatedCategory : Option String → String
  | some c => if validCategories.contains c then c else "Other"
  | none => "Other"

/-- The `sentiment` component of `validateAnalysis`. -/
def validatedSentiment : Option String → String
  | some s => if ["positive", "negative", "neutral"].contains s then s else "neutral"
  | none => "neutral"

/-- The `suggestedLabel` component of `validateAnalysis`: default, sanitize,
and fall back to `'General'` when sanitizing leaves nothing. -/
def validatedLabel (x : Option String) : String :=
  let label := cleanLabel (strOrDefault x "General")
  if label = "" then "General" else label

/-- `EnhancedGeminiAnalyzer.validateAnalysis`. -/
def validateAnalysis (a : RawAnalysis) : ClassificationResult :=
  { purpose := strOrDefault a.purpose "Unknown purpose",
    category := validatedCategory a.category,
    summary := strOrDefault a.summary "No summary available",
    sentiment := validatedSentiment a.sentiment,
    suggestedLabel := validatedLabel a.suggestedLabel }

/-- JavaScript lowercasing (character-wise, ASCII). -/
def lowerStr (s : String) : String := String.mk (s.data.map Char.toLower)

/-- Substring occurrence over character lists. -/
def hasPat (p : List Char) : List Char → Bool
  | [] => p.isEmpty
  | c :: t => p.isPrefixOf (c :: t) || hasPat p t

/-- JavaScript `s.includes(k)`. -/
def strIncludes (s k : String) : Bool := hasPat k.data s.data

def financialKeywords : List String :=
  ["invoice", "payment", "bill", "transaction", "amount", "due", "statement",
   "credit card", "bank", "account"]

def investmentKeywords : List String :=
  ["sip", "mutual fund", "stock", "portfolio", "investment", "trading", "demat"]

def workKeywords : List String :=
  ["meeting", "project", "deadline", "report", "presentation", "office", "work"]

def personalKeywords : List String :=
  ["family", "friend", "personal", "weekend", "trip", "vacation"]

def shoppingKeywords : List String :=
  ["order", "delivery", "purchase", "buy", "shop", "cart", "shipment"]

def positiveWords : List String :=
  ["congratulations", "thank you", "great", "excellent", "success", "approved"]

def negativeWords : List String :=
  ["urgent", "overdue", "failed", "error", "problem", "issue", "cancelled"]

/-- The `(category, purpose, suggestedLabel)` decision chain of
`fallbackAnalysis`. -/
def fallbackCPS (subjectLower snippetLower : String) : String × String × String :=
  if financialKeywords.any
      (fun k => strIncludes subjectLower k || strIncludes snippetLower k) then
    if investmentKeywords.any (fun k => strIncludes subjectLower k) then
      ("Finance/Investments", "Investment notification", "Investments")
    else
      ("Finance/Banking", "Financial transaction", "Banking")
  else if workKeywords.any (fun k => strIncludes subjectLower k) then
    ("Work", "Work related", "Work")
  else if personalKeywords.any (fun k => strIncludes subjectLower k) then
    ("Personal", "Personal communication", "Personal")
  else if shoppingKeywords.any (fun k => strIncludes subjectLower k) then
    ("Shopping", "Shopping related", "Shopping")
  else
    ("Other", "General communication", "General")

/-- The sentiment decision chain of `fallbackAnalysis` (it looks only at the
lowercased subject). -/
def fallbackSentiment (subjectLower : String) : String :=
  if positiveWords.any (fun w => strIncludes subjectLower w) then "positive"
  else if negativeWords.any (fun w => strIncludes subjectLower w) then "negative"
  else "neutral"

/-- `EnhancedGeminiAnalyzer.fallbackAnalysis` (the deterministic rule
engine).  The source also lowercases `from` but never consults it in any
rule. -/
def fallbackAnalysis (subject sender snippet : String) : ClassificationResult :=
  { purpose := (fallbackCPS (lowerStr subject) (lowerStr snippet)).2.1,
    category := (fallbackCPS (lowerStr subject) (lowerStr snippet)).1,
    summary := if 100 < subject.data.length
      then String.mk (subject.data.take 97) ++ "..." else subject,
    sentiment := fallbackSentiment (lowerStr subject),
    suggestedLabel := (fallbackCPS (lowerStr subject) (lowerStr snippet)).2.2 }

/-- Side effects of one `analyzeEmail` call: number of rate-limit entries
recorded and of requests issued to the classification API. -/
structure ClsEffects where
  rateRecorded : Nat
  apiCalls : Nat
  deriving Repr, DecidableEq

/-- `EnhancedGeminiAnalyzer.analyzeEmail(subject, from, snippet, userId)`.
The constructor stores `USE_GEMINI` (here `useGemini`), but the method body
never consults it: it asks the rate limiter first and then calls the AI
backend.  `aiOutcome` abstracts `callGeminiAPI` (the parsed JSON object, or
the rejection message); the surrounding `try`/`catch` turns any failure into
`fallbackAnalysis`, so the function always returns a result. -/
def analyzeEmail (useGemini rateStoreOk : Bool)
    (aiOutcome : Except String RawAnalysis) (rateDb : List RateEntry)
    (now : Nat) (subject sender snippet userId : String) :
    ClassificationResult × List RateEntry × ClsEffects :=
  let rl := checkRateLimit rateStoreOk rateDb now userId "gemini"
  if rl.1 = false then
    (fallbackAnalysis subject sender snippet, rl.2,
      ⟨rl.2.length - rateDb.length, 0⟩)
  else
    match aiOutcome with
    | Except.ok raw =>
      (validateAnalysis raw, rl.2, ⟨rl.2.length - rateDb.length, 1⟩)
    | Except.error _ =>
      (fallbackAnalysis subject sender snippet, rl.2,
        ⟨rl.2.length - rateDb.length, 1⟩)

/-- The field invariants of a stored `ClassificationResult`: category in the
closed set, sentiment in {positive, negative, neutral}, label made only of
characters the sanitizer keeps, label at most 30 characters. -/
def resultOk (r : ClassificationResult) : Bool :=
  validCategories.contains r.category &&
  (r.sentiment = "positive" || r.sentiment = "negative" || r.sentiment = "neutral") &&
  r.suggestedLabel.data.all keepLabelChar &&
  decide (r.suggestedLabel.data.length ≤ 30)

theorem cleanLabel_chars (s : String) :
    (cleanLabel s).data.all keepLabelChar = true := by
  unfold cleanLabel
  rw [List.all_eq_true]
  intro c hc
  simp only [String.mk] at hc
  have h1 : c ∈ ((((s.data.filter keepLabelChar).dropWhile
      jsWhitespace).reverse.dropWhile jsWhitespace).reverse) :=
    List.take_subset _ _ hc
  rw [List.mem_reverse] at h1
  have h2 := (List.dropWhile_sublist jsWhitespace).subset h1
  rw [List.mem_reverse] at h2
  have h3 := (List.dropWhile_sublist jsWhitespace).subset h2
  exact (List.mem_filter.mp h3).2

theorem cleanLabel_len (s : String) :
    (cleanLabel s).data.length ≤ 30 := by
  unfold cleanLabel
  simp only [String.mk]
  rw [List.length_take]
  exact min_le_left _ _

theorem validatedCategory_mem (c? : Option String) :
    validCategories.contains (validatedCategory c?) = true := by
  cases c? with
  | none => decide
  | some c =>
    simp only [validatedCategory]
    by_cases h : validCategories.contains c = true
    · rw [if_pos h]; exact h
    · rw [if_neg h]; decide

theorem validatedSentiment_mem (s? : Option String) :
    ((validatedSentiment s?) = "positive" || (validatedSentiment s?) = "negative" ||
      (validatedSentiment s?) = "neutral") = true := by
  cases s? with
  | none => decide
  | some s =>
    simp only [validatedSentiment]
    by_cases h : (["positive", "negative", "neutral"] : List String).contains s = true
    · have hmem : s = "positive" ∨ s = "negative" ∨ s = "neutral" := by
        simpa using h
      rcases hmem with rfl | rfl | rfl <;> decide
    · have hmem : ¬(s = "positive" ∨ s = "negative" ∨ s = "neutral") := by
        simpa using h
      simp [h, hmem]

theorem validatedLabel_chars (x : Option String) :
    (validatedLabel x).data.all keepLabelChar = true := by
  unfold validatedLabel
  by_cases h : cleanLabel (strOrDefault x "General") = ""
  · rw [if_pos h]; decide
  · rw [if_neg h]; exact cleanLabel_chars _

theorem validatedLabel_len (x : Option String) :
    (validatedLabel x).data.length ≤ 30 := by
  unfold validatedLabel
  by_cases h : cleanLabel (strOrDefault x "General") = ""
  · rw [if_pos h]; decide
  · rw [if_neg h]; exact cleanLabel_len _

theorem validate_resultOk (a : RawAnalysis) :
    resultOk (validateAnalysis a) = true := by
  unfold resultOk
  rw [show (validateAnalysis a).category = validatedCategory a.category from rfl,
    show (validateAnalysis a).sentiment = validatedSentiment a.sentiment from rfl,
    show (validateAnalysis a).suggestedLabel = validatedLabel a.suggestedLabel from rfl,
    validatedCategory_mem, validatedSentiment_mem, validatedLabel_chars,
    decide_eq_true (validatedLabel_len a.suggestedLabel)]
  rfl

theorem fallbackCPS_cases (a b : String) :
    fallbackCPS a b = ("Finance/Investments", "Investment notification", "Investments") ∨
    fallbackCPS a b = ("Finance/Banking", "Financial transaction", "Banking") ∨
    fallbackCPS a b = ("Work", "Work related", "Work") ∨
    fallbackCPS a b = ("Personal", "Personal communication", "Personal") ∨
    fallbackCPS a b = ("Shopping", "Shopping related", "Shopping") ∨
    fallbackCPS a b = ("Other", "General communication", "General") := by
  unfold fallbackCPS
  split_ifs <;> simp

theorem fallbackSentiment_cases (a : String) :
    fallbackSentiment a = "positive" ∨ fallbackSentiment a = "negative" ∨
      fallbackSentiment a = "neutral" := by
  unfold fallbackSentiment
  split_ifs <;> simp

theorem fallback_resultOk (subject sender snippet : String) :
    resultOk (fallbackAnalysis subject sender snippet) = true := by
  unfold resultOk
  rw [show (fallbackAnalysis subject sender snippet).category =
      (fallbackCPS (lowerStr subject) (lowerStr snippet)).1 from rfl,
    show (fallbackAnalysis subject sender snippet).sentiment =
      fallbackSentiment (lowerStr subject) from rfl,
    show (fallbackAnalysis subject sender snippet).suggestedLabel =
      (fallbackCPS (lowerStr subject) (lowerStr snippet)).2.2 from rfl]
  rcases fallbackCPS_cases (lowerStr subject) (lowerStr snippet) with
    h | h | h | h | h | h <;>
    rcases fallbackSentiment_cases (lowerStr subject) with hs | hs | hs <;>
      rw [h, hs] <;> decide

/-- Claim C2 (amended): for every input and every AI outcome,
`analyzeEmail` returns a result (the try/catch falls through to the rule
engine on any AI failure, and also when the rate limiter denies) whose
category is in the closed set, whose sentiment is one of positive, negative,
neutral, and whose suggestedLabel consists only of characters the sanitizer
keeps — alphanumerics, whitespace characters (`\s`, which is wider than the
single space character), and `'/'` — and is at most 30 characters long; on
any AI-path failure the returned value is exactly the rule-engine result. -/
theorem claim_C2 (useGemini rateStoreOk : Bool)
    (aiOutcome : Except String RawAnalysis) (rateDb : List RateEntry)
    (now : Nat) (subject sender snippet userId : String) :
    resultOk (analyzeEmail useGemini rateStoreOk aiOutcome rateDb now
      subject sender snippet userId).1 = true ∧
    (∀ e, (analyzeEmail useGemini rateStoreOk (Except.error e) rateDb now
      subject sender snippet userId).1 = fallbackAnalysis subject sender snippet) := by
  constructor
  · unfold analyzeEmail
    by_cases h : (checkRateLimit rateStoreOk rateDb now userId "gemini").1 = false
    · simp only [if_pos h]
      exact fallback_resultOk subject sender snippet
    · simp only [if_neg h]
      cases aiOutcome with
      | ok raw => exact validate_resultOk raw
      | error e => exact fallback_resultOk subject sender snippet
  · intro e
    unfold analyzeEmail
    by_cases h : (checkRateLimit rateStoreOk rateDb now userId "gemini").1 = false
    · simp only [if_pos h]
    · simp only [if_neg h]

/-- Counterexample to claim C2 as stated: an AI response whose
`suggestedLabel` embeds a tab character passes the sanitizer (the regex
keeps every `\s` character), so the returned label is not made only of
alphanumerics, spaces and `'/'`. -/
theorem claim_C2_cex :
    (analyzeEmail true true (Except.ok { suggestedLabel := some "a\tb" })
      [] 0 "s" "f" "sn" "u1").1.suggestedLabel = "a\tb" ∧
    "a\tb".data.all (fun c => c.isAlphanum || c = ' ' || c = '/') = false := by
  exact ⟨by decide, by decide⟩

/-- Claim C6: the source stores `USE_GEMINI` in the constructor but
`analyzeEmail` never consults it — the function is literally independent of
the flag, and with the flag off it still records a rate-limit entry and
still issues an AI request (here from an empty rate window). -/
theorem claim_C6 (rateStoreOk : Bool) (aiOutcome : Except String RawAnalysis)
    (rateDb : List RateEntry) (now : Nat)
    (subject sender snippet userId : String) :
    (analyzeEmail false rateStoreOk aiOutcome rateDb now
        subject sender snippet userId =
      analyzeEmail true rateStoreOk aiOutcome rateDb now
        subject sender snippet userId) ∧
    ((analyzeEmail false true aiOutcome [] now
        subject sender snippet userId).2.2.rateRecorded = 1) ∧
    ((analyzeEmail false true aiOutcome [] now
        subject sender snippet userId).2.2.apiCalls = 1) := by
  refine ⟨rfl, ?_, ?_⟩ <;>
  · unfold analyzeEmail
    have h : checkRateLimit true [] now userId "gemini" =
        (true, [⟨userId ++ "_" ++ "gemini", now⟩]) := by
      apply checkRateLimit_allows
      simp [inWindowCount]
    rw [h]
    cases aiOutcome <;> rfl

/-! ## Credential guard (`withTokenRefresh`, server-mongo.js) -/

/-- A thrown JavaScript error as the guard inspects it. -/
structure JsError where
  code : Option Nat
  message : String
  deriving Repr, DecidableEq

/-- `error.code === 401 || error.message.includes('invalid_token')`. -/
def isTokenError (e : JsError) : Bool :=
  e.code == some 401 || strIncludes e.message "invalid_token"

structure Credential where
  accessToken : String
  refreshToken : String
  deriving Repr, DecidableEq

/-- Observable effects of one `withTokenRefresh` invocation. -/
structure GuardEffects where
  installs : List Credential
  refreshAttempts : Nat
  persisted : Option Credential
  operationCalls : Nat
  deriving Repr, DecidableEq

inductive GuardResult (α : Type) where
  | ok (a : α)
  | reauth
  | raised (e : JsError)
  deriving Repr, DecidableEq

/-- `credentials.refresh_token || req.user.refreshToken`: an empty refresh
token in the refreshed credential is falsy and falls back to the session
one. -/
def mergedCred (userCred newCred : Credential) : Credential :=
  ⟨newCred.accessToken,
    if newCred.refreshToken = "" then userCred.refreshToken
    else newCred.refreshToken⟩

/-- `withTokenRefresh(req, res, operation)`.  `first` abstracts the outcome
of the initial `operation()` call, `refreshed` the outcome of
`oauth2Client.refreshAccessToken()`, and `second` the outcome of the retried
`operation()` (consulted only when a retry happens).  The persistence write
(`updateUserTokens`) happens before the retry, so it survives a failing
retry; the inner catch turns both a refresh failure and a retry failure into
the `requiresReauth` response. -/
def withTokenRefresh (α : Type) (userCred : Credential)
    (first : Except JsError α) (refreshed : Except JsError Credential)
    (second : Except JsError α) : GuardResult α × GuardEffects :=
  match first with
  | Except.ok a => (GuardResult.ok a, ⟨[userCred], 0, none, 1⟩)
  | Except.error e =>
    if isTokenError e then
      match refreshed with
      | Except.error _ => (GuardResult.reauth, ⟨[userCred], 1, none, 1⟩)
      | Except.ok newCred =>
        match second with
        | Except.ok a =>
          (GuardResult.ok a,
            ⟨[userCred, mergedCred userCred newCred], 1,
              some (mergedCred userCred newCred), 2⟩)
        | Except.error _ =>
          (GuardResult.reauth,
            ⟨[userCred, mergedCred userCred newCred], 1,
              some (mergedCred userCred newCred), 2⟩)
    else
      (GuardResult.raised e, ⟨[userCred], 0, none, 1⟩)

/-- Claim C3: when the wrapped operation fails with an authorization-expired
signal the credential is refreshed exactly once, persisted, reinstalled on
the client, and the operation retried exactly once more; if the refresh
fails, or the retried operation fails again, the result is the
`requiresReauth` error with no further retries; a non-authorization failure
propagates immediately without a refresh; and in every case at most one
refresh attempt and at most one retried call (two operation calls) occur. -/
theorem claim_C3 (α : Type) (userCred : Credential) (a : α) (e e2 : JsError)
    (first : Except JsError α) (refreshed : Except JsError Credential)
    (second : Except JsError α) (newCred : Credential) :
    (withTokenRefresh α userCred (Except.ok a) refreshed second =
      (GuardResult.ok a, ⟨[userCred], 0, none, 1⟩)) ∧
    (isTokenError e = true →
      withTokenRefresh α userCred (Except.error e) (Except.error e2) second =
        (GuardResult.reauth, ⟨[userCred], 1, none, 1⟩)) ∧
    (isTokenError e = true →
      withTokenRefresh α userCred (Except.error e) (Except.ok newCred) (Except.ok a) =
        (GuardResult.ok a,
          ⟨[userCred, mergedCred userCred newCred], 1,
            some (mergedCred userCred newCred), 2⟩)) ∧
    (isTokenError e = true →
      withTokenRefresh α userCred (Except.error e) (Except.ok newCred)
          (Except.error e2) =
        (GuardResult.reauth,
          ⟨[userCred, mergedCred userCred newCred], 1,
            some (mergedCred userCred newCred), 2⟩)) ∧
    (isTokenError e = false →
      withTokenRefresh α userCred (Except.error e) refreshed second =
        (GuardResult.raised e, ⟨[userCred], 0, none, 1⟩)) ∧
    ((withTokenRefresh α userCred first refreshed second).2.refreshAttempts ≤ 1 ∧
      (withTokenRefresh α userCred first refreshed second).2.operationCalls ≤ 2) := by
  refine ⟨rfl, ?_, ?_, ?_, ?_, ?_⟩
  · intro h
    simp [withTokenRefresh, h]
  · intro h
    simp [withTokenRefresh, h]
  · intro h
    simp [withTokenRefresh, h]
  · intro h
    simp [withTokenRefresh, h]
  · cases first with
    | ok a => exact ⟨show (0:Nat) ≤ 1 by omega, show (1:Nat) ≤ 2 by omega⟩
    | error e =>
      by_cases h : isTokenError e = true
      · cases refreshed with
        | error _ => simp [withTokenRefresh, h]
        | ok c =>
          cases second with
          | ok _ => simp [withTokenRefresh, h]
          | error _ => simp [withTokenRefresh, h]
      · simp [withTokenRefresh, h]

theorem claim_C3_witness :
    withTokenRefresh Nat ⟨"at0", "rt0"⟩
        (Except.error ⟨some 401, "expired"⟩) (Except.ok ⟨"at1", ""⟩)
        (Except.ok 7) =
      (GuardResult.ok 7,
        ⟨[⟨"at0", "rt0"⟩, ⟨"at1", "rt0"⟩], 1, some ⟨"at1", "rt0"⟩, 2⟩) :=
  (claim_C3 Nat ⟨"at0", "rt0"⟩ 7 ⟨some 401, "expired"⟩ ⟨none, "x"⟩
      (Except.ok 7) (Except.ok ⟨"at1", ""⟩) (Except.ok 7)
      ⟨"at1", ""⟩).2.2.1 (by decide)

/-! ## `batchAssignLabels` (C9) -/

/-- One document of the `emails` collection, restricted to the fields
`batchAssignLabels` reads.  `analysisLabel` stands for
`email.analysis && email.analysis.suggestedLabel` (`none` when `analysis` is
absent). -/
structure EmailRec where
  gmailId : String
  userId : String
  processed : Bool
  synced : Bool
  analysisLabel : Option String
  timestamp : Nat
  deriving Repr, DecidableEq

/-- Truthiness of `email.analysis && email.analysis.suggestedLabel`. -/
def labelTruthy : Option String → Bool
  | none => false
  | some s => decide (s ≠ "")

/-- Insertion step of a timestamp-descending sort. -/
def insertByTs (e : EmailRec) : List EmailRec → List EmailRec
  | [] => [e]
  | x :: t => if x.timestamp < e.timestamp then e :: x :: t else x :: insertByTs e t

/-- `getEmails(userId, { processed: true, limit })`:
`find({ userId, processed: true }).sort({ timestamp: -1 }).limit(limit)`. -/
def selectProcessed (emails : List EmailRec) (u : String) (limit : Nat) :
    List EmailRec :=
  ((emails.filter (fun e => decide (e.userId = u) && e.processed)).foldr
    insertByTs []).take limit

/-- `updateOne({ gmailId }, { $set: { synced: true, ... } })`. -/
def setSynced : List EmailRec → String → List EmailRec
  | [], _ => []
  | e :: t, gid =>
    if e.gmailId = gid then { e with synced := true } :: t else e :: setSynced t gid

/-- State threaded through the per-email loop: success and failure counters,
the issued `users.messages.modify` calls `(gmailId, gmailLabelId)`, and the
store. -/
structure LoopOut where
  succ : Nat
  fail : Nat
  calls : List (String × String)
  store : List EmailRec
  deriving Repr, DecidableEq

/-- The `for (const email of unsyncedEmails)` loop of `batchAssignLabels`. -/
def assignLoop (labels : List LabelRec) (u : String) :
    List EmailRec → LoopOut → LoopOut
  | [], acc => acc
  | e :: todo, acc =>
    if labelTruthy e.analysisLabel then
      match getLabelByName labels u (e.analysisLabel.getD "") with
      | some l =>
        assignLoop labels u todo
          { acc with
            succ := acc.succ + 1,
            calls := acc.calls ++ [(e.gmailId, l.gmailLabelId)],
            store := setSynced acc.store e.gmailId }
      | none => assignLoop labels u todo { acc with fail := acc.fail + 1 }
    else
      assignLoop labels u todo acc

/-- `options.batchSize || 50`. -/
def jsBatchSize : Option Nat → Nat
  | some n => if n = 0 then 50 else n
  | none => 50

structure AssignOut where
  emailsProcessed : Nat
  emailsTotal : Nat
  errors : List String
  deriving Repr, DecidableEq

/-- `BatchProcessor.batchAssignLabels(batchId, options)`: select processed
records (bounded, newest first), keep the unsynced ones, return the
zero-result early when none remain, otherwise run the assignment loop.
Returns the result object, the provider label-apply calls issued, and the
updated `emails` collection. -/
def batchAssignLabels (emails : List EmailRec) (labels : List LabelRec)
    (u : String) (batchSize : Option Nat) :
    AssignOut × List (String × String) × List EmailRec :=
  let sel := selectProcessed emails u (jsBatchSize batchSize)
  let unsynced := sel.filter (fun e => !e.synced)
  if unsynced.isEmpty then
    (⟨0, 0, []⟩, [], emails)
  else
    let r := assignLoop labels u unsynced ⟨0, 0, [], emails⟩
    (⟨r.succ, unsynced.length,
        if 0 < r.fail then [toString r.fail ++ " emails failed labeling"] else []⟩,
      r.calls, r.store)

/-- Claim C9: when every selected record is already synced (as after a
previous `assignLabels` run over the same data), `batchAssignLabels` is a
no-op: it selects no unsynced records, issues no provider label-apply call,
changes no email record, and reports `emailsProcessed = 0`. -/
theorem claim_C9 (emails : List EmailRec) (labels : List LabelRec)
    (u : String) (batchSize : Option Nat)
    (h : ∀ e ∈ selectProcessed emails u (jsBatchSize batchSize), e.synced = true) :
    batchAssignLabels emails labels u batchSize =
      ({ emailsProcessed := 0, emailsTotal := 0, errors := [] }, [], emails) := by
  unfold batchAssignLabels
  have hnil : (selectProcessed emails u (jsBatchSize batchSize)).filter
      (fun e => !e.synced) = [] := by
    apply List.filter_eq_nil_iff.mpr
    intro e he
    simp [h e he]
  simp only [hnil]
  rfl

theorem claim_C9_witness :
    batchAssignLabels
        [⟨"g1", "u1", true, true, some "Banking", 5⟩,
         ⟨"g2", "u2", true, false, some "Work", 6⟩]
        [⟨"u1", "Banking", "L1", true⟩] "u1" (some 50) =
      ({ emailsProcessed := 0, emailsTotal := 0, errors := [] }, [],
        [⟨"g1", "u1", true, true, some "Banking", 5⟩,
         ⟨"g2", "u2", true, false, some "Work", 6⟩]) :=
  claim_C9
    [⟨"g1", "u1", true, true, some "Banking", 5⟩,
     ⟨"g2", "u2", true, false, some "Work", 6⟩]
    [⟨"u1", "Banking", "L1", true⟩] "u1" (some 50) (by decide)

end SmartMail
